import Mathlib

/-!
Shallow embedding of the upload-classify controller of the
plant_disease_detection web client (src/src/App.tsx; the variants in
src/unnamed/part_000 and src/unnamed/part_001 contain the same logic
verbatim).  Pure string helpers are translated to functions on
List Char; the React state hooks become one state record, and the
event handlers become state-transition functions.  The browser
object-URL API is modelled by an allocation environment that records
which handles were created and which were revoked; the source contains
no call to URL.revokeObjectURL, so no operation ever adds to the
revoked list.
-/

/-- ASCII lower-to-upper case pairs; the only characters that
JavaScript toUpperCase can change among the characters the source ever
feeds to it (single word characters matched by a regex). -/
def lowerUpperPairs : List (Char × Char) :=
  [('a','A'), ('b','B'), ('c','C'), ('d','D'), ('e','E'), ('f','F'),
   ('g','G'), ('h','H'), ('i','I'), ('j','J'), ('k','K'), ('l','L'),
   ('m','M'), ('n','N'), ('o','O'), ('p','P'), ('q','Q'), ('r','R'),
   ('s','S'), ('t','T'), ('u','U'), ('v','V'), ('w','W'), ('x','X'),
   ('y','Y'), ('z','Z')]

/-- ASCII upper-to-lower case pairs, the ASCII fragment of JavaScript
toLowerCase; these are the only case pairs whose image can meet the
all-lowercase ASCII needle "healthy" used by the source. -/
def upperLowerPairs : List (Char × Char) :=
  [('A','a'), ('B','b'), ('C','c'), ('D','d'), ('E','e'), ('F','f'),
   ('G','g'), ('H','h'), ('I','i'), ('J','j'), ('K','k'), ('L','l'),
   ('M','m'), ('N','n'), ('O','o'), ('P','p'), ('Q','q'), ('R','r'),
   ('S','s'), ('T','t'), ('U','u'), ('V','v'), ('W','w'), ('X','x'),
   ('Y','y'), ('Z','z')]

/-- Per-character model of JavaScript toUpperCase on the characters
the source applies it to. -/
def jsToUpper (c : Char) : Char :=
  match lowerUpperPairs.find? (fun p => p.1 == c) with
  | some p => p.2
  | none => c

/-- Per-character model of JavaScript toLowerCase (ASCII fragment). -/
def jsToLower (c : Char) : Char :=
  match upperLowerPairs.find? (fun p => p.1 == c) with
  | some p => p.2
  | none => c

/-- Word character of the JavaScript regex class backslash-w:
ASCII letter, ASCII digit, or underscore. -/
def isWordChar (c : Char) : Bool :=
  c.isAlpha || c.isDigit || c == '_'

/-- Model of the first step of formatDiseaseName, the global
replacement of three consecutive underscores by " - " (left to right,
non overlapping, exactly as a global regex replace scans). -/
def replaceTriple : List Char → List Char
  | [] => []
  | [c] => [c]
  | [c1, c2] => [c1, c2]
  | c1 :: c2 :: c3 :: rest =>
    if c1 = '_' ∧ c2 = '_' ∧ c3 = '_' then
      ' ' :: '-' :: ' ' :: replaceTriple rest
    else
      c1 :: replaceTriple (c2 :: c3 :: rest)

/-- Model of the second step of formatDiseaseName, the global
replacement of every remaining underscore by a space. -/
def replaceUnderscores (l : List Char) : List Char :=
  l.map (fun c => if c = '_' then ' ' else c)

/-- Model of the third step of formatDiseaseName, the global regex
replace of backslash-b backslash-w by its upper case: a word character
is uppercased exactly when the preceding character is absent or not a
word character.  The boolean argument records whether the preceding
character was a word character. -/
def capWordsAux : Bool → List Char → List Char
  | _, [] => []
  | prevWord, c :: rest =>
    if isWordChar c then
      (if prevWord then c else jsToUpper c) :: capWordsAux true rest
    else
      c :: capWordsAux false rest

/-- The three replacement steps of formatDiseaseName on a character
list. -/
def formatList (l : List Char) : List Char :=
  capWordsAux false (replaceUnderscores (replaceTriple l))

/-- formatDiseaseName from src/src/App.tsx lines 46 to 51: replace
"___" by " - ", replace "_" by " ", uppercase word characters at word
boundaries. -/
def formatDiseaseName (s : String) : String :=
  ⟨formatList s.data⟩

/-- Modelled from the words of the spec for comparison with the
source: step three reads "upper-case the first letter of every
whitespace-delimited word", so here a character is uppercased exactly
when it is not whitespace and it starts the string or follows a
whitespace character.  The boolean argument records whether the next
character starts a whitespace-delimited word. -/
def capFirstOfWordsAux : Bool → List Char → List Char
  | _, [] => []
  | atStart, c :: rest =>
    if c.isWhitespace then
      c :: capFirstOfWordsAux true rest
    else
      (if atStart then jsToUpper c else c) :: capFirstOfWordsAux false rest

/-- The three-step recipe exactly as worded by the spec: steps one and
two agree with the source, step three uppercases only the first
character of each whitespace-delimited word. -/
def formatDiseaseNameSpec (s : String) : String :=
  ⟨capFirstOfWordsAux true (replaceUnderscores (replaceTriple s.data))⟩

/-- Prefix check on character lists: beginsWith pat l is true when pat
is an initial segment of l. -/
def beginsWith : List Char → List Char → Bool
  | [], _ => true
  | _ :: _, [] => false
  | a :: pat, b :: l => (a == b) && beginsWith pat l

/-- Model of JavaScript String includes on character lists: true when
needle occurs as a contiguous segment. -/
def jsIncludes (needle : List Char) : List Char → Bool
  | [] => beginsWith needle []
  | c :: rest => beginsWith needle (c :: rest) || jsIncludes needle rest

/-- Model of JavaScript String startsWith used by handleFileSelect. -/
def jsStartsWith (s pre : String) : Bool :=
  beginsWith pre.data s.data

/-- Model of JavaScript String toLowerCase. -/
def jsToLowerStr (s : String) : String :=
  ⟨s.data.map jsToLower⟩

/-- Health presentation record returned by getHealthStatus; the icon
component is represented by its name. -/
structure HealthStatus where
  isHealthy : Bool
  icon : String
  color : String
  bgColor : String
  borderColor : String
deriving DecidableEq

/-- getHealthStatus from src/src/App.tsx lines 53 to 62. -/
def getHealthStatus (prediction : String) : HealthStatus :=
  let isHealthy := jsIncludes ("healthy").data (jsToLowerStr prediction).data
  { isHealthy := isHealthy
    icon := if isHealthy then "CheckCircle" else "AlertCircle"
    color := if isHealthy then "text-emerald-400" else "text-red-400"
    bgColor := if isHealthy then "bg-emerald-500/20" else "bg-red-500/20"
    borderColor := if isHealthy then "border-emerald-500/30" else "border-red-500/30" }

/-- A browser File value: only its media type and a name are relevant
to the controller.  The handlers are only invoked on an actual file,
so the JavaScript null check in handleFileSelect is vacuous here. -/
structure File where
  name : String
  type : String
deriving DecidableEq

/-- The PredictionResult interface of the source.  The stored
prediction is an Option because the JavaScript expression building it
can evaluate to undefined when both response fields are absent. -/
structure PredictionResult where
  prediction : Option String
  confidence : Option Rat
  image_url : Option String
deriving DecidableEq

/-- The JSON body of a response from POST /predict: each field may be
absent. -/
structure ResponseData where
  prediction : Option String
  data : Option String
  confidence : Option Rat
  image_url : Option String
deriving DecidableEq

/-- JavaScript truthiness fallback a or-or b on optional strings: the
left operand wins exactly when it is present and non-empty. -/
def jsOrString : Option String → Option String → Option String
  | some s, b => if s = "" then b else some s
  | none, b => b

/-- The page enumeration of the source. -/
inductive Page
  | home
  | predict
  | about
deriving DecidableEq

/-- The React state of the App component (all useState hooks). -/
structure AppState where
  currentPage : Page
  selectedFile : Option File
  previewUrl : String
  isLoading : Bool
  result : Option PredictionResult
  error : String
  isDragOver : Bool
deriving DecidableEq

/-- Environment modelling the browser object-URL allocator: counter is
the next fresh handle, created lists handles returned by
URL.createObjectURL, revoked lists handles passed to
URL.revokeObjectURL.  The source never calls URL.revokeObjectURL and
installs no unmount cleanup, so no transition below touches revoked. -/
structure UrlEnv where
  counter : Nat
  created : List Nat
  revoked : List Nat
deriving DecidableEq

/-- The object-URL string derived from a handle number. -/
def objectUrlOf (n : Nat) : String :=
  "blob:" ++ toString n

/-- Controller state plus the object-URL environment. -/
structure World where
  app : AppState
  urls : UrlEnv
deriving DecidableEq

/-- The initial state of the component. -/
def initialWorld : World :=
  { app := { currentPage := Page.home
             selectedFile := none
             previewUrl := ""
             isLoading := false
             result := none
             error := ""
             isDragOver := false }
    urls := { counter := 0, created := [], revoked := [] } }

/-- handleFileSelect from src/src/App.tsx lines 23 to 32: on an image
media type it stores the file, derives a fresh preview handle and
clears result and error; otherwise it only sets the error message. -/
def handleFileSelect (w : World) (file : File) : World :=
  if jsStartsWith file.type "image/" then
    { app := { w.app with
        selectedFile := some file
        previewUrl := objectUrlOf w.urls.counter
        result := none
        error := "" }
      urls := { counter := w.urls.counter + 1
                created := w.urls.created ++ [w.urls.counter]
                revoked := w.urls.revoked } }
  else
    { w with app := { w.app with error := "Please select a valid image file" } }

/-- The synchronous head of handleSubmit (src/src/App.tsx lines 64 to
78): with no selected file it returns immediately; otherwise it sets
the loading flag, clears the error, and issues exactly one request
whose multipart payload carries the selected file, returned here as
the second component. -/
def handleSubmitStart (w : World) : World × Option File :=
  match w.app.selectedFile with
  | none => (w, none)
  | some f =>
    ({ w with app := { w.app with isLoading := true, error := "" } }, some f)

/-- The success continuation of handleSubmit (src/src/App.tsx lines 80
to 83 plus the finally block): the stored result takes its prediction
from response.data.prediction with truthiness fallback to
response.data.data, copies image_url, never sets confidence, and the
finally block clears the loading flag. -/
def handleSubmitResolve (w : World) (d : ResponseData) : World :=
  { w with app := { w.app with
      result := some { prediction := jsOrString d.prediction d.data
                       confidence := none
                       image_url := d.image_url }
      isLoading := false } }

/-- The failure continuation of handleSubmit (src/src/App.tsx lines 84
to 89 plus the finally block): a fixed user-facing message and the
loading flag cleared; the caught cause only goes to the console. -/
def handleSubmitReject (w : World) : World :=
  { w with app := { w.app with
      error := "Failed to analyze the image. Please try again."
      isLoading := false } }

/-- States reachable by the event loop: any file selection at any
time, a submit at any time, and a response only while a request is in
flight (the loading flag is set). -/
inductive Reachable : World → Prop
  | init : Reachable initialWorld
  | select (w : World) (f : File) : Reachable w → Reachable (handleFileSelect w f)
  | start (w : World) : Reachable w → Reachable (handleSubmitStart w).1
  | resolve (w : World) (d : ResponseData) :
      Reachable w → w.app.isLoading = true → Reachable (handleSubmitResolve w d)
  | reject (w : World) :
      Reachable w → w.app.isLoading = true → Reachable (handleSubmitReject w)

/-- A sample image file. -/
def imgFile : File := { name := "leaf.jpg", type := "image/jpeg" }

/-- A second sample image file. -/
def imgFile2 : File := { name := "leaf2.png", type := "image/png" }

/-- A sample non-image file. -/
def textFile : File := { name := "notes.txt", type := "text/plain" }

/-- A sample successful response body. -/
def dOk : ResponseData :=
  { prediction := some "Tomato___Late_blight", data := none
    confidence := none, image_url := none }

/-- The world after selecting an image file in the initial state. -/
def wReady : World := handleFileSelect initialWorld imgFile

/-- The world when the first request is in flight. -/
def wSubmitting : World := (handleSubmitStart wReady).1

/-- The world after the first request succeeded. -/
def wOk : World := handleSubmitResolve wSubmitting dOk

/-- Whether an optional preceding character is a word character; an
absent predecessor (start of string) counts as not a word character. -/
def isWordCharOpt : Option Char → Bool
  | none => false
  | some c => isWordChar c

/-- Position-based reformulation of the third step of
formatDiseaseName: pair every character with its predecessor and
uppercase exactly the word characters whose predecessor is absent or
not a word character. -/
def capAmended (l : List Char) : List Char :=
  (l.zip ((none : Option Char) :: l.map some)).map
    (fun q => if isWordChar q.1 && !(isWordCharOpt q.2) then jsToUpper q.1 else q.1)

/-- Every pair of the lower-to-upper table has a fixed point of
jsToUpper as image, both components are word characters, and the image
is not an underscore. -/
theorem lowerUpperPairs_spec :
    ∀ p ∈ lowerUpperPairs,
      jsToUpper p.2 = p.2 ∧ isWordChar p.2 = true ∧ isWordChar p.1 = true ∧ p.2 ≠ '_' := by
  decide

/-- jsToUpper is idempotent. -/
theorem jsToUpper_idem (c : Char) : jsToUpper (jsToUpper c) = jsToUpper c := by
  cases h : lowerUpperPairs.find? (fun p => p.1 == c) with
  | none =>
    have hc : jsToUpper c = c := by unfold jsToUpper; rw [h]
    rw [hc, hc]
  | some p =>
    have hc : jsToUpper c = p.2 := by unfold jsToUpper; rw [h]
    have hp := List.mem_of_find?_eq_some h
    rw [hc, (lowerUpperPairs_spec p hp).1]

/-- jsToUpper maps word characters to word characters and non word
characters to themselves. -/
theorem isWordChar_jsToUpper (c : Char) : isWordChar (jsToUpper c) = isWordChar c := by
  cases h : lowerUpperPairs.find? (fun p => p.1 == c) with
  | none =>
    have hc : jsToUpper c = c := by unfold jsToUpper; rw [h]
    rw [hc]
  | some p =>
    have hc : jsToUpper c = p.2 := by unfold jsToUpper; rw [h]
    have hp := List.mem_of_find?_eq_some h
    have heq : p.1 = c := by
      have := List.find?_some h
      exact beq_iff_eq.mp this
    rw [hc, (lowerUpperPairs_spec p hp).2.1, ← heq, (lowerUpperPairs_spec p hp).2.2.1]

/-- jsToUpper never produces an underscore from a non underscore. -/
theorem jsToUpper_ne_underscore (c : Char) (h : c ≠ '_') : jsToUpper c ≠ '_' := by
  cases hf : lowerUpperPairs.find? (fun p => p.1 == c) with
  | none =>
    have hc : jsToUpper c = c := by unfold jsToUpper; rw [hf]
    rw [hc]; exact h
  | some p =>
    have hc : jsToUpper c = p.2 := by unfold jsToUpper; rw [hf]
    have hp := List.mem_of_find?_eq_some hf
    rw [hc]; exact (lowerUpperPairs_spec p hp).2.2.2

/-- beginsWith decides initial-segment decomposition. -/
theorem beginsWith_iff (pat : List Char) :
    ∀ l, beginsWith pat l = true ↔ ∃ t, l = pat ++ t := by
  induction pat with
  | nil =>
    intro l
    simp [beginsWith]
  | cons a pat ih =>
    intro l
    cases l with
    | nil =>
      simp [beginsWith]
    | cons b bs =>
      simp only [beginsWith, Bool.and_eq_true, beq_iff_eq, ih bs, List.cons_append,
        List.cons_eq_cons]
      constructor
      · rintro ⟨rfl, t, rfl⟩
        exact ⟨t, rfl, rfl⟩
      · rintro ⟨t, rfl, rfl⟩
        exact ⟨rfl, t, rfl⟩

/-- jsIncludes decides contiguous-segment decomposition. -/
theorem jsIncludes_iff (n : List Char) :
    ∀ l, jsIncludes n l = true ↔ ∃ p t, l = p ++ (n ++ t) := by
  intro l
  induction l with
  | nil =>
    simp only [jsIncludes, beginsWith_iff]
    constructor
    · rintro ⟨t, ht⟩
      exact ⟨[], t, ht⟩
    · rintro ⟨p, t, h⟩
      have h2 := List.append_eq_nil.mp h.symm
      exact ⟨t, h2.2.symm⟩
  | cons c rest ih =>
    simp only [jsIncludes, Bool.or_eq_true, beginsWith_iff, ih]
    constructor
    · rintro (⟨t, ht⟩ | ⟨p, t, ht⟩)
      · exact ⟨[], t, ht⟩
      · exact ⟨c :: p, t, by rw [List.cons_append, ht]⟩
    · rintro ⟨p, t, ht⟩
      cases p with
      | nil => exact Or.inl ⟨t, ht⟩
      | cons a p =>
        have h2 := List.cons_eq_cons.mp ht
        exact Or.inr ⟨p, t, h2.2⟩

/-- A contiguous segment of a mapped list is the image of a contiguous
segment of the original list. -/
theorem map_split (f : Char → Char) (l p n t : List Char)
    (h : l.map f = p ++ (n ++ t)) :
    ∃ p0 m t0, l = p0 ++ (m ++ t0) ∧ m.map f = n := by
  refine ⟨l.take p.length, (l.drop p.length).take n.length,
         (l.drop p.length).drop n.length, ?_, ?_⟩
  · rw [List.take_append_drop, List.take_append_drop]
  · rw [List.map_take, List.map_drop, h, List.drop_left, List.take_left]

/-- jsIncludes on a mapped list is segment containment up to the map. -/
theorem jsIncludes_map_iff (f : Char → Char) (n : List Char) (l : List Char) :
    jsIncludes n (l.map f) = true ↔ ∃ p m t, l = p ++ (m ++ t) ∧ m.map f = n := by
  rw [jsIncludes_iff]
  constructor
  · rintro ⟨p, t, h⟩
    exact map_split f l p n t h
  · rintro ⟨p, m, t, rfl, rfl⟩
    exact ⟨p.map f, t.map f, by simp⟩

/-- The underscore-to-space step leaves no underscore behind. -/
theorem not_mem_replaceUnderscores (l : List Char) : '_' ∉ replaceUnderscores l := by
  intro h
  rw [replaceUnderscores, List.mem_map] at h
  obtain ⟨c, _, hc⟩ := h
  by_cases h1 : c = '_'
  · rw [if_pos h1] at hc
    exact absurd hc (by decide)
  · rw [if_neg h1] at hc
    exact h1 hc

/-- The underscore-to-space step fixes underscore-free lists. -/
theorem replaceUnderscores_eq_self (l : List Char) (h : '_' ∉ l) :
    replaceUnderscores l = l := by
  induction l with
  | nil => rfl
  | cons c rest ih =>
    simp only [List.mem_cons, not_or] at h
    have h1 : ¬ c = '_' := fun hc => h.1 hc.symm
    show (if c = '_' then ' ' else c) :: replaceUnderscores rest = c :: rest
    rw [if_neg h1, ih h.2]

/-- The triple-underscore step fixes underscore-free lists. -/
theorem replaceTriple_eq_self : ∀ l : List Char, '_' ∉ l → replaceTriple l = l
  | [], _ => rfl
  | [_], _ => rfl
  | [_, _], _ => rfl
  | c1 :: c2 :: c3 :: rest, h => by
    have h1 : ¬ (c1 = '_' ∧ c2 = '_' ∧ c3 = '_') := by
      intro hc
      exact h (by simp [hc.1])
    have h2 : '_' ∉ c2 :: c3 :: rest := by
      intro hm
      exact h (List.mem_cons_of_mem c1 hm)
    simp only [replaceTriple]
    rw [if_neg h1, replaceTriple_eq_self (c2 :: c3 :: rest) h2]

/-- The capitalisation step introduces no underscore. -/
theorem not_mem_capWordsAux :
    ∀ (l : List Char) (b : Bool), '_' ∉ l → '_' ∉ capWordsAux b l := by
  intro l
  induction l with
  | nil =>
    intro b _ hmem
    simp [capWordsAux] at hmem
  | cons c rest ih =>
    intro b h hmem
    simp only [List.mem_cons, not_or] at h
    rw [capWordsAux] at hmem
    by_cases hw : isWordChar c = true
    · rw [if_pos hw] at hmem
      rcases List.mem_cons.mp hmem with h1 | h1
      · cases b with
        | true => exact h.1 h1
        | false => exact jsToUpper_ne_underscore c (fun hc => h.1 hc.symm) h1.symm
      · exact ih true h.2 h1
    · rw [if_neg hw] at hmem
      rcases List.mem_cons.mp hmem with h1 | h1
      · exact h.1 h1
      · exact ih false h.2 h1

/-- The capitalisation step is idempotent. -/
theorem capWordsAux_idem :
    ∀ (l : List Char) (b : Bool), capWordsAux b (capWordsAux b l) = capWordsAux b l := by
  intro l
  induction l with
  | nil => intro b; rfl
  | cons c rest ih =>
    intro b
    by_cases hw : isWordChar c = true
    · cases b with
      | true => simp [capWordsAux, hw, ih]
      | false => simp [capWordsAux, hw, isWordChar_jsToUpper, jsToUpper_idem, ih]
    · simp [capWordsAux, hw, ih]

/-- The whole formatting pipeline is idempotent on character lists. -/
theorem formatList_idem (l : List Char) : formatList (formatList l) = formatList l := by
  unfold formatList
  have hm : '_' ∉ replaceUnderscores (replaceTriple l) := not_mem_replaceUnderscores _
  have hout : '_' ∉ capWordsAux false (replaceUnderscores (replaceTriple l)) :=
    not_mem_capWordsAux _ false hm
  rw [replaceTriple_eq_self _ hout, replaceUnderscores_eq_self _ hout, capWordsAux_idem]

/-- The scanning capitalisation equals the position-based one, for any
consistent seed describing the predecessor of the first character. -/
theorem capWordsAux_eq_zip :
    ∀ (l : List Char) (p : Option Char),
      capWordsAux (isWordCharOpt p) l =
        (l.zip (p :: l.map some)).map
          (fun q => if isWordChar q.1 && !(isWordCharOpt q.2) then jsToUpper q.1 else q.1) := by
  intro l
  induction l with
  | nil => intro p; rfl
  | cons c rest ih =>
    intro p
    have hrest : capWordsAux (isWordChar c) rest
        = (rest.zip (some c :: rest.map some)).map
          (fun q => if isWordChar q.1 && !(isWordCharOpt q.2) then jsToUpper q.1 else q.1) :=
      ih (some c)
    cases hw : isWordChar c with
    | true =>
      rw [hw] at hrest
      cases hp : isWordCharOpt p with
      | true => simp [capWordsAux, hw, hp, hrest]
      | false => simp [capWordsAux, hw, hp, hrest]
    | false =>
      rw [hw] at hrest
      simp [capWordsAux, hw, hrest]

/-- C2 counterexample: the claim says formatDiseaseName computes the
three-step recipe whose last step uppercases the first letter of every
whitespace-delimited word, but on the input "a-b" the source uppercases
the b after the dash as well, because the regex word boundary is not a
whitespace boundary. -/
theorem C2_counterexample :
    formatDiseaseName "a-b" = "A-B" ∧
    formatDiseaseNameSpec "a-b" = "A-b" ∧
    formatDiseaseName "a-b" ≠ formatDiseaseNameSpec "a-b" := by
  refine ⟨by decide, by decide, by decide⟩

/-- C2 amended: formatDiseaseName replaces every triple underscore by
" - ", every remaining underscore by a space, and then uppercases
exactly the word characters (ASCII letter, digit or underscore) whose
preceding character is absent or not a word character; the three
examples of the claim hold. -/
theorem C2_theorem :
    (∀ s : String,
        formatDiseaseName s = ⟨capAmended (replaceUnderscores (replaceTriple s.data))⟩) ∧
    formatDiseaseName "Tomato___Late_blight" = "Tomato - Late Blight" ∧
    formatDiseaseName "Apple___healthy" = "Apple - Healthy" ∧
    formatDiseaseName "Background_without_leaves" = "Background Without Leaves" := by
  refine ⟨?_, by decide, by decide, by decide⟩
  intro s
  exact congrArg String.mk (capWordsAux_eq_zip (replaceUnderscores (replaceTriple s.data)) none)

/-- C5: the health predicate of getHealthStatus is true exactly when
the string contains a contiguous segment that is the word healthy in
some letter casing, character by character; in particular it is true on
"Apple___healthy" and false on "Apple___Apple_scab". -/
theorem C5_theorem :
    (∀ s : String,
        ((getHealthStatus s).isHealthy = true ↔
          ∃ p m t : List Char, s.data = p ++ (m ++ t) ∧ m.map jsToLower = ("healthy").data)) ∧
    (getHealthStatus "Apple___healthy").isHealthy = true ∧
    (getHealthStatus "Apple___Apple_scab").isHealthy = false := by
  refine ⟨?_, by decide, by decide⟩
  intro s
  have h0 : (getHealthStatus s).isHealthy
      = jsIncludes ("healthy").data (s.data.map jsToLower) := rfl
  rw [h0, jsIncludes_map_iff]

/-- C10: formatDiseaseName is idempotent, so re-formatting an already
formatted label never changes it. -/
theorem C10_theorem (s : String) :
    formatDiseaseName (formatDiseaseName s) = formatDiseaseName s :=
  congrArg String.mk (formatList_idem s.data)

/-- C6: selecting a file whose media type does not start with "image/"
sets the error to exactly "Please select a valid image file" and
changes nothing else: result, preview, selected file, loading flag and
the object-URL environment are untouched. -/
theorem C6_theorem (w : World) (f : File)
    (h : jsStartsWith f.type "image/" = false) :
    handleFileSelect w f
        = { w with app := { w.app with error := "Please select a valid image file" } } ∧
    (handleFileSelect w f).app.error = "Please select a valid image file" ∧
    (handleFileSelect w f).app.result = w.app.result ∧
    (handleFileSelect w f).app.previewUrl = w.app.previewUrl ∧
    (handleFileSelect w f).app.selectedFile = w.app.selectedFile ∧
    (handleFileSelect w f).app.isLoading = w.app.isLoading ∧
    (handleFileSelect w f).urls = w.urls := by
  have h0 : handleFileSelect w f
      = { w with app := { w.app with error := "Please select a valid image file" } } := by
    simp [handleFileSelect, h]
  refine ⟨h0, by rw [h0], by rw [h0], by rw [h0], by rw [h0], by rw [h0], by rw [h0]⟩

/-- C6 witness: selecting the sample text file in the initial state
only sets the error message. -/
theorem C6_theorem_witness :
    handleFileSelect initialWorld textFile
      = { initialWorld with
          app := { initialWorld.app with error := "Please select a valid image file" } } :=
  (C6_theorem initialWorld textFile (by decide)).1

/-- C7: the failure continuation of a submission stores exactly the
fixed user-facing message, clears the loading flag, and surfaces
nothing else: the stored result and the object-URL environment are
untouched. -/
theorem C7_theorem (w : World) :
    (handleSubmitReject w).app.error = "Failed to analyze the image. Please try again." ∧
    (handleSubmitReject w).app.isLoading = false ∧
    (handleSubmitReject w).app.result = w.app.result ∧
    (handleSubmitReject w).urls = w.urls :=
  ⟨rfl, rfl, rfl, rfl⟩

/-- C8: after two successive valid image selections the model has
created two preview handles and revoked none, the first handle being
superseded by the second; the source never calls URL.revokeObjectURL,
so the superseded handle leaks, against the resource contract of the
spec. -/
theorem C8_theorem :
    (handleFileSelect (handleFileSelect initialWorld imgFile) imgFile2).urls.created = [0, 1] ∧
    (handleFileSelect (handleFileSelect initialWorld imgFile) imgFile2).app.previewUrl
      = objectUrlOf 1 ∧
    (handleFileSelect (handleFileSelect initialWorld imgFile) imgFile2).urls.revoked = [] := by
  refine ⟨by decide, by decide, by decide⟩

/-- C9: submitting with no selected file is a no-op: the whole state,
object-URL environment included, is unchanged and no request payload
is produced. -/
theorem C9_theorem (w : World) (h : w.app.selectedFile = none) :
    handleSubmitStart w = (w, none) := by
  simp [handleSubmitStart, h]

/-- C9 witness: submitting in the initial state is a no-op. -/
theorem C9_theorem_witness : handleSubmitStart initialWorld = (initialWorld, none) :=
  C9_theorem initialWorld rfl

/-- A response body carrying a confidence and an image URL. -/
def dConf : ResponseData :=
  { prediction := some "Tomato___Late_blight", data := none
    confidence := some ((97 : Rat) / 100), image_url := some "/static/uploads/leaf.jpg" }

/-- A response body whose prediction field is present but empty, with
the legacy data field set. -/
def dEmptyPred : ResponseData :=
  { prediction := some "", data := some "Potato___healthy"
    confidence := none, image_url := none }

/-- C1 counterexample: from the initial state, select an image, submit
and succeed, then select a non-image file.  The resulting state is
reachable, the state before the bad selection satisfies the at most
one of result and error predicate, and the bad selection breaks it:
result and error are populated together.  A second reachable violation
arises when a submission fails while a previous result is displayed. -/
theorem C1_counterexample :
    Reachable (handleFileSelect wOk textFile) ∧
    (wOk.app.result = none ∨ wOk.app.error = "") ∧
    ¬ ((handleFileSelect wOk textFile).app.result = none ∨
        (handleFileSelect wOk textFile).app.error = "") ∧
    Reachable (handleSubmitReject (handleSubmitStart wOk).1) ∧
    ¬ ((handleSubmitReject (handleSubmitStart wOk).1).app.result = none ∨
        (handleSubmitReject (handleSubmitStart wOk).1).app.error = "") := by
  have hOk : Reachable wOk :=
    Reachable.resolve wSubmitting dOk
      (Reachable.start wReady (Reachable.select initialWorld imgFile Reachable.init))
      (by decide)
  refine ⟨Reachable.select wOk textFile hOk, by decide, by decide, ?_, by decide⟩
  exact Reachable.reject (handleSubmitStart wOk).1 (Reachable.start wOk hOk) (by decide)

/-- C1 amended: selecting a valid image always clears both result and
error; the submit guard preserves the at most one populated predicate,
and a success response preserves it whenever the error is empty, as it
is right after a submit starts.  Selecting an invalid file or failing
a submission, however, sets the error while keeping any displayed
result, so the predicate is not a global invariant. -/
theorem C1_theorem :
    (∀ (w : World) (f : File), jsStartsWith f.type "image/" = true →
        (handleFileSelect w f).app.result = none ∧ (handleFileSelect w f).app.error = "") ∧
    (∀ w : World, (w.app.result = none ∨ w.app.error = "") →
        ((handleSubmitStart w).1.app.result = none ∨ (handleSubmitStart w).1.app.error = "")) ∧
    (∀ (w : World) (d : ResponseData), w.app.error = "" →
        ((handleSubmitResolve w d).app.result = none ∨
          (handleSubmitResolve w d).app.error = "")) := by
  refine ⟨?_, ?_, ?_⟩
  · intro w f h
    constructor <;> simp [handleFileSelect, h]
  · intro w hw
    cases hsel : w.app.selectedFile with
    | none => simpa [handleSubmitStart, hsel] using hw
    | some f => simp [handleSubmitStart, hsel]
  · intro w d h
    right
    simpa [handleSubmitResolve] using h

/-- C1 witness: the amended preservation facts at concrete inputs. -/
theorem C1_theorem_witness :
    ((handleFileSelect initialWorld imgFile).app.result = none ∧
      (handleFileSelect initialWorld imgFile).app.error = "") ∧
    ((handleSubmitStart initialWorld).1.app.result = none ∨
      (handleSubmitStart initialWorld).1.app.error = "") ∧
    ((handleSubmitResolve wSubmitting dOk).app.result = none ∨
      (handleSubmitResolve wSubmitting dOk).app.error = "") :=
  ⟨C1_theorem.1 initialWorld imgFile (by decide),
   C1_theorem.2.1 initialWorld (by decide),
   C1_theorem.2.2 wSubmitting dOk (by decide)⟩

/-- C3 counterexample: a successful response carrying a confidence
value yields a stored result whose confidence is absent, so the
confidence is not copied through. -/
theorem C3_counterexample :
    dConf.confidence = some ((97 : Rat) / 100) ∧
    (handleSubmitResolve wSubmitting dConf).app.result
      = some { prediction := some "Tomato___Late_blight", confidence := none
               image_url := some "/static/uploads/leaf.jpg" } ∧
    (handleSubmitResolve wSubmitting dConf).app.result.map PredictionResult.confidence
      ≠ some dConf.confidence := by
  refine ⟨rfl, by decide, by decide⟩

/-- C3 amended: on a successful response the stored result copies the
image URL through, present or not, but never stores a confidence: the
stored confidence is always absent; the loading flag is cleared. -/
theorem C3_theorem (w : World) (d : ResponseData) :
    (handleSubmitResolve w d).app.result.map PredictionResult.image_url = some d.image_url ∧
    (handleSubmitResolve w d).app.result.map PredictionResult.confidence = some none ∧
    (handleSubmitResolve w d).app.isLoading = false :=
  ⟨rfl, rfl, rfl⟩

/-- C4 counterexample: a response whose prediction field is present
but empty falls back to the legacy data field, so the stored label is
not the prediction field even though that field is present. -/
theorem C4_counterexample :
    dEmptyPred.prediction = some "" ∧
    (handleSubmitResolve wSubmitting dEmptyPred).app.result.map PredictionResult.prediction
      = some (some "Potato___healthy") ∧
    (some (some "Potato___healthy") : Option (Option String)) ≠ some dEmptyPred.prediction := by
  refine ⟨rfl, by decide, by decide⟩

/-- C4 amended: the stored label equals the prediction field of the
response when that field is present and non-empty, and equals the
legacy data field when the prediction field is absent or empty; in
particular a body with only data set to Potato___healthy stores that
label. -/
theorem C4_theorem (w : World) (d : ResponseData) :
    (∀ p : String, d.prediction = some p → p ≠ "" →
        (handleSubmitResolve w d).app.result.map PredictionResult.prediction = some (some p)) ∧
    (d.prediction = none →
        (handleSubmitResolve w d).app.result.map PredictionResult.prediction = some d.data) ∧
    (d.prediction = some "" →
        (handleSubmitResolve w d).app.result.map PredictionResult.prediction = some d.data) ∧
    (handleSubmitResolve w { prediction := none, data := some "Potato___healthy"
                             confidence := none, image_url := none }).app.result.map
        PredictionResult.prediction = some (some "Potato___healthy") := by
  refine ⟨?_, ?_, ?_, rfl⟩
  · intro p hp hne
    simp [handleSubmitResolve, jsOrString, hp, hne]
  · intro hp
    simp [handleSubmitResolve, jsOrString, hp]
  · intro hp
    simp [handleSubmitResolve, jsOrString, hp]

/-- C4 witness: the amended label rule applied at a concrete non-empty
prediction. -/
theorem C4_theorem_witness :
    (handleSubmitResolve initialWorld dOk).app.result.map PredictionResult.prediction
      = some (some "Tomato___Late_blight") :=
  (C4_theorem initialWorld dOk).1 "Tomato___Late_blight" rfl (by decide)
